import Mathlib

/-!
Verification of the sark convenience layer (src/sark/qt.py, src/sark/code/line.py,
src/codecs/proxy.py) against its natural-language specification.

The code is glue around a host application (the disassembler) and its Qt binding.
Host-provided APIs (idaapi, idc, idautils, the Qt menu bar, the filesystem seen by
imp.load_source) are modelled as explicit parameters: functions and tables passed
into each translated operation.  Mutation of host state is modelled by returning
the updated state.
-/

namespace Sark

/-! ## MenuManager (src/sark/qt.py, class MenuManager)

The manager holds a dict `_menus : name -> QMenu` and a pointer `_menu` to the
host menu bar.  We model the dict as an association list in insertion order,
a QMenu pointer as a numeric id handed out fresh by `addMenu`, and the menu
bar as the list of action ids currently attached to it.  `addMenu name`
appends a fresh action to the bar; `removeAction` erases it. -/

inductive MenuError
  | menuAlreadyExists
  | menuNotFound
deriving DecidableEq, Repr

structure MenuState where
  /-- The `_menus` dict: registered names with the menu id each maps to. -/
  menus : List (String × Nat)
  /-- Action ids currently attached to the host menu bar (`_menu`). -/
  menuBar : List Nat
  /-- Next fresh menu id the host hands out on `addMenu`. -/
  fresh : Nat
deriving DecidableEq, Repr

namespace MenuManager

/-- Translation of `MenuManager.__init__`: empty dict, host bar as found. -/
def init (bar : List Nat) (fresh : Nat) : MenuState :=
  { menus := [], menuBar := bar, fresh := fresh }

/-- Translation of `MenuManager.add_menu`.  Raises `MenuAlreadyExists` when the
name is in `_menus`; otherwise `menu = self._menu.addMenu(name)` attaches a
fresh menu action to the bar and `self._menus[name] = menu` records it.
Returns the raised error (if any) together with the state at that point. -/
def add_menu (s : MenuState) (name : String) : Option MenuError × MenuState :=
  if (s.menus.lookup name).isSome then
    (some MenuError.menuAlreadyExists, s)
  else
    let menu := s.fresh
    (none,
      { menus := s.menus ++ [(name, menu)]
        menuBar := s.menuBar ++ [menu]
        fresh := s.fresh + 1 })

/-- Translation of `MenuManager.remove_menu`.  Raises `MenuNotFound` when the
name is not in `_menus`; otherwise removes the menu action from the host bar.
Note that the source never deletes `name` from `self._menus`. -/
def remove_menu (s : MenuState) (name : String) : Option MenuError × MenuState :=
  match s.menus.lookup name with
  | none => (some MenuError.menuNotFound, s)
  | some menu => (none, { s with menuBar := s.menuBar.erase menu })

/-- Translation of `MenuManager.clear`: removes every recorded menu action from
the host bar.  Note that the source never empties `self._menus`. -/
def clear (s : MenuState) : MenuState :=
  { s with menuBar := s.menus.foldl (fun bar p => bar.erase p.2) s.menuBar }

end MenuManager

/-! ## Line and Comments (src/sark/code/line.py)

The host APIs used by `Line.__init__` (`idc.LocByName`, `idc.here`,
`idaapi.get_item_head`) are a `LineHost`; the APIs used by the `Comments`
getters (`idc.Comment`, `idc.RptCmt`, `idc.LineA`, `idc.LineB`) are a
`CommentHost`.  A host call that can return no value (a missing comment)
yields an `Option String`. -/

structure LineHost where
  /-- Host `idc.LocByName`. -/
  locByName : String → Nat
  /-- Host `idc.here` (the current screen address). -/
  here : Nat
  /-- Host `idaapi.get_item_head`. -/
  getItemHead : Nat → Nat

/-- The `ea` argument of `Line.__init__`: the default `UseCurrentAddress`
filler object, the Python value `None`, or an actual address. -/
inductive EaArg
  | useCurrentAddress
  | noneArg
  | addr (a : Nat)
deriving DecidableEq, Repr

/-- The fields `Line.__init__` assigns: `self._ea = idaapi.get_item_head(ea)`
and `self._comments = Comments(ea)`, whose own field is `Comments._ea`. -/
structure LineState where
  ea : Nat
  commentsEa : Nat
deriving DecidableEq, Repr

inductive LineInitError
  | valueError
deriving DecidableEq, Repr

/-- Translation of the argument-resolution chain of `Line.__init__`:
raise ValueError when a name is supplied together with an explicit `ea`
(anything other than the `UseCurrentAddress` default); else resolve a name
through `idc.LocByName`; else resolve the default through `idc.here`; else
raise ValueError on `ea=None`; else use `ea` itself. -/
def lineResolveEa (h : LineHost) (eaArg : EaArg) (name : Option String) :
    Except LineInitError Nat :=
  match name, eaArg with
  | some _, EaArg.noneArg => Except.error LineInitError.valueError
  | some _, EaArg.addr _ => Except.error LineInitError.valueError
  | some n, EaArg.useCurrentAddress => Except.ok (h.locByName n)
  | none, EaArg.useCurrentAddress => Except.ok h.here
  | none, EaArg.noneArg => Except.error LineInitError.valueError
  | none, EaArg.addr a => Except.ok a

/-- Translation of `Line.__init__`: after resolving the arguments to an
address `ea`, set `self._ea = idaapi.get_item_head(ea)` and
`self._comments = Comments(ea)` (with the raw `ea`, not the item head). -/
def Line_init (h : LineHost) (eaArg : EaArg) (name : Option String) :
    Except LineInitError LineState :=
  (lineResolveEa h eaArg name).map
    (fun ea => { ea := h.getItemHead ea, commentsEa := ea })

structure CommentHost where
  /-- Host `idc.Comment`. -/
  comment : Nat → Option String
  /-- Host `idc.RptCmt`. -/
  rptCmt : Nat → Option String
  /-- Host `idc.LineA ea index` (anterior extra line number `index`). -/
  lineA : Nat → Nat → Option String
  /-- Host `idc.LineB ea index` (posterior extra line number `index`). -/
  lineB : Nat → Nat → Option String

namespace Comments

/-- Translation of the `Comments.regular` getter: `idc.Comment(self._ea)`. -/
def regular (h : CommentHost) (ea : Nat) : Option String :=
  h.comment ea

/-- Translation of the `Comments.repeat` getter: `idc.RptCmt(self._ea)`. -/
def repeatable (h : CommentHost) (ea : Nat) : Option String :=
  h.rptCmt ea

/-- Values of `f i, f (i+1), ...` up to (excluding) the first `none`, as the
generator `iter(lines.next, None)` produces them.  The Python loop has no
bound of its own, so the translation carries explicit fuel; any fuel past
the first `none` gives the same list (`collectLines_spec` below). -/
def collectLines (f : Nat → Option String) : Nat → Nat → List String
  | 0, _ => []
  | fuel + 1, i =>
    match f i with
    | none => []
    | some s => s :: collectLines f fuel (i + 1)

/-- Translation of the `Comments.anterior` getter:
join with newlines the values `idc.LineA(self._ea, 0)`, `idc.LineA(self._ea, 1)`,
... up to the first `None`. -/
def anterior (h : CommentHost) (ea fuel : Nat) : String :=
  String.intercalate "\n" (collectLines (h.lineA ea) fuel 0)

/-- Translation of the `Comments.posterior` getter: same as `anterior` with
`idc.LineB`. -/
def posterior (h : CommentHost) (ea fuel : Nat) : String :=
  String.intercalate "\n" (collectLines (h.lineB ea) fuel 0)

/-- The anterior or posterior comment as the specification words it: the
newline-join of the host line values at indices `0, ..., k - 1`, where `k` is
the first index at which the host has no line. -/
def specLineJoin (f : Nat → Option String) (k : Nat) : String :=
  String.intercalate "\n" ((List.range k).map (fun j => (f j).getD ""))

end Comments

namespace Line

/-- Translation of the `Line.color` getter over the host color table
(`idc.GetColor` with `CIC_ITEM` reads the table at the line address):
the sentinel 0xFFFFFFFF reads back as `None`. -/
def color (st : Nat → Nat) (ea : Nat) : Option Nat :=
  let c := st ea
  if c = 0xFFFFFFFF then none else some c

/-- Translation of the `Line.color` setter: `None` is stored as the sentinel
0xFFFFFFFF, then `idc.SetColor` with `CIC_ITEM` updates the host color table
at the line address.  Returns the updated table. -/
def color_set (st : Nat → Nat) (ea : Nat) (c : Option Nat) : Nat → Nat :=
  let c2 := match c with
    | none => 0xFFFFFFFF
    | some v => v
  fun x => if x = ea then c2 else st x

end Line

/-! ## Codec proxy (src/codecs/proxy.py) -/

/-- A module produced by `imp.load_source`; the only attribute the proxy
uses is `getregentry`, modelled as an opaque token. -/
structure CodecModule where
  getregentry : String
deriving DecidableEq, Repr

/-- The environment the proxy module runs in: the expanded `$sarkCodecs`
directory and the filesystem as `imp.load_source` sees it (`none` when no
source file exists at the path, in which case the import raises). -/
structure CodecsEnv where
  codecsDir : String
  loadSource : String → Option CodecModule

/-- Translation of `os.path.join` for the two-argument POSIX case the proxy
uses: an absolute second component replaces the first, otherwise the parts
are joined with a single separator. -/
def pathJoin (a b : String) : String :=
  if b.toList.head? = some '/' then b
  else if a = "" then b
  else if a.toList.getLast? = some '/' then a ++ b
  else a ++ "/" ++ b

/-- Characters of the component after the last separator: walking the
characters, a dot resets the accumulator, any other character extends it. -/
def lastComponentAux : List Char → List Char → List Char
  | acc, [] => acc
  | acc, c :: cs =>
    if c = '.' then lastComponentAux [] cs else lastComponentAux (acc ++ [c]) cs

/-- Translation of `__name__.split(".")[-1]`: the last dot-separated
component of the module name, that is its suffix after the final dot (the
whole name when it has no dot). -/
def lastDotComponent (s : String) : String :=
  String.mk (lastComponentAux [] s.toList)

/-- Translation of the proxy module body: `name = __name__.split(".")[-1]`,
`codec_filename = name + ".py"`, `codec_path = path.join(CODECS_DIR,
codec_filename)`, `codec = imp.load_source(__name__, codec_path)`,
`getregentry = codec.getregentry`. -/
def proxy_getregentry (env : CodecsEnv) (moduleName : String) : Option String :=
  let name := lastDotComponent moduleName
  let codec_filename := name ++ ".py"
  let codec_path := pathJoin env.codecsDir codec_filename
  (env.loadSource codec_path).map (fun codec => codec.getregentry)

/-! ## Qt module initialization (src/sark/qt.py, lines 11-17) -/

/-- What the import-time patch does to `sys.path`: the path during the
forced PySide import and the path after the `finally` block. -/
structure QtInitTrace where
  pathDuringImport : List String
  finalPath : List String
  importRaised : Bool
deriving DecidableEq, Repr

/-- Translation of the module-level patch: `old_path = sys.path[:]` takes a
copy; `sys.path.insert(0, ida_python_path)` prepends for the import; the
`finally` block assigns the copy back whether or not the import raised. -/
def qt_module_init (sysPath : List String) (idaPythonPath : String)
    (importRaises : Bool) : QtInitTrace :=
  let old_path := sysPath
  { pathDuringImport := idaPythonPath :: sysPath
    finalPath := old_path
    importRaised := importRaises }

/-! ## Concrete hosts and states used by witnesses and counterexamples -/

/-- A fresh manager as `MenuManager.__init__` leaves it, over an empty host
menu bar. -/
def menuS0 : MenuState := MenuManager.init [] 0

/-- The state after `add_menu("A")` on a fresh manager. -/
def menuS1 : MenuState := (MenuManager.add_menu menuS0 "A").2

/-- The state after `add_menu("A")` then `remove_menu("A")`. -/
def menuS2 : MenuState := (MenuManager.remove_menu menuS1 "A").2

/-- A line host whose item heads round addresses down to multiples of 4. -/
def lineHostW : LineHost :=
  { locByName := fun _ => 0
    here := 12
    getItemHead := fun a => a - a % 4 }

/-- A comment host with a two-line anterior comment at every address. -/
def hostTwoLines : CommentHost :=
  { comment := fun _ => some "reg"
    rptCmt := fun _ => some "rpt"
    lineA := fun _ i => if i = 0 then some "alpha" else if i = 1 then some "beta" else none
    lineB := fun _ i => if i = 0 then some "gamma" else none }

/-- A codec environment with one loadable source file. -/
def codecEnvW : CodecsEnv :=
  { codecsDir := "/codecs"
    loadSource := fun p =>
      if p = "/codecs/hebrew.py" then some { getregentry := "hebrew-entry" } else none }

/-! ## Theorems -/

/-- C1: the claim says `remove_menu(name)` removes the entry for `name` from
the mapping (so a subsequent `add_menu(name)` succeeds) and `clear()` leaves
the mapping empty.  The code does neither: after `add_menu("A")` then
`remove_menu("A")` (which itself raises nothing and empties the host bar),
the mapping still holds the entry for "A", the subsequent `add_menu("A")`
raises `MenuAlreadyExists`, and `clear` also leaves the entry in place. -/
theorem remove_leaves_mapping_entry :
    (MenuManager.remove_menu menuS1 "A").1 = none ∧
    menuS2.menus = [("A", 0)] ∧
    menuS2.menuBar = [] ∧
    (MenuManager.add_menu menuS2 "A").1 = some MenuError.menuAlreadyExists ∧
    (MenuManager.clear menuS1).menus = [("A", 0)] := by
  decide

/-- C2: `add_menu(name)` raises `MenuAlreadyExists` if and only if `name` is
already registered in the mapping; otherwise it attaches a fresh menu to the
host menu bar and records `name -> menu` in the mapping. -/
theorem add_menu_correct (s : MenuState) (name : String) :
    ((MenuManager.add_menu s name).1 = some MenuError.menuAlreadyExists ↔
      (s.menus.lookup name).isSome = true) ∧
    ((s.menus.lookup name).isSome = false →
      (MenuManager.add_menu s name).1 = none ∧
      (MenuManager.add_menu s name).2.menuBar = s.menuBar ++ [s.fresh] ∧
      (MenuManager.add_menu s name).2.menus = s.menus ++ [(name, s.fresh)]) := by
  unfold MenuManager.add_menu
  cases h : (s.menus.lookup name).isSome <;> simp [h]

/-- C2 witness: `add_menu_correct` evaluated on a fresh manager and name "A". -/
theorem add_menu_correct_witness :
    ((MenuManager.add_menu menuS0 "A").1 = some MenuError.menuAlreadyExists ↔
      (menuS0.menus.lookup "A").isSome = true) ∧
    ((menuS0.menus.lookup "A").isSome = false →
      (MenuManager.add_menu menuS0 "A").1 = none ∧
      (MenuManager.add_menu menuS0 "A").2.menuBar = menuS0.menuBar ++ [menuS0.fresh] ∧
      (MenuManager.add_menu menuS0 "A").2.menus = menuS0.menus ++ [("A", menuS0.fresh)]) :=
  add_menu_correct menuS0 "A"

/-- C7: whenever `add_menu` or `remove_menu` raises its named error, the
call leaves both the mapping and the host menu bar exactly as they were:
the error is raised by the leading membership check, before any mutation. -/
theorem menu_ops_atomic_on_error (s : MenuState) (name : String) :
    ((MenuManager.add_menu s name).1.isSome = true →
      (MenuManager.add_menu s name).2 = s) ∧
    ((MenuManager.remove_menu s name).1.isSome = true →
      (MenuManager.remove_menu s name).2 = s) := by
  constructor
  · unfold MenuManager.add_menu
    cases h : (s.menus.lookup name).isSome <;> simp [h]
  · unfold MenuManager.remove_menu
    cases h : s.menus.lookup name <;> simp [h]

/-- C7 witness: a raising `add_menu` (duplicate name on `menuS1`) and a
raising `remove_menu` (unknown name on the fresh `menuS0`) each leave the
state unchanged. -/
theorem menu_ops_atomic_on_error_witness :
    (MenuManager.add_menu menuS1 "A").1.isSome = true ∧
    (MenuManager.add_menu menuS1 "A").2 = menuS1 ∧
    (MenuManager.remove_menu menuS0 "A").1.isSome = true ∧
    (MenuManager.remove_menu menuS0 "A").2 = menuS0 :=
  ⟨by decide, (menu_ops_atomic_on_error menuS1 "A").1 (by decide),
    by decide, (menu_ops_atomic_on_error menuS0 "A").2 (by decide)⟩

/-- C3 counterexample: the claim says constructing `Line(ea, name)` performs
no input validation of its own and raises no error originating in this code,
for every combination of arguments.  But `Line.__init__` itself raises
ValueError when a name is supplied together with an explicit address. -/
theorem line_init_rejects_explicit_ea_with_name :
    Line_init lineHostW (EaArg.addr 5) (some "main") =
      Except.error LineInitError.valueError := rfl

/-- C3 amended: `Line.__init__` does validate its arguments.  It raises a
ValueError originating in this code exactly when a name is supplied together
with an explicit address, or when `ea` is the Python value `None`; for every
other combination it raises nothing. -/
theorem line_init_error_iff (h : LineHost) (eaArg : EaArg) (name : Option String) :
    Line_init h eaArg name = Except.error LineInitError.valueError ↔
      ((name ≠ none ∧ eaArg ≠ EaArg.useCurrentAddress) ∨
        (name = none ∧ eaArg = EaArg.noneArg)) := by
  cases name <;> cases eaArg <;> simp [Line_init, lineResolveEa, Except.map]

/-- C6: `Line(ea).ea` is the host item head of `ea`, so two addresses with
the same item head give `Line` objects with the same `ea`. -/
theorem line_ea_is_item_head (h : LineHost) (a b : Nat) (sa sb : LineState)
    (ha : Line_init h (EaArg.addr a) none = Except.ok sa)
    (hb : Line_init h (EaArg.addr b) none = Except.ok sb) :
    sa.ea = h.getItemHead a ∧
    (h.getItemHead a = h.getItemHead b → sa.ea = sb.ea) := by
  simp only [Line_init, lineResolveEa, Except.map, Except.ok.injEq] at ha hb
  subst ha
  subst hb
  exact ⟨rfl, fun hab => hab⟩

/-- C6 witness: with item heads rounding down to multiples of 4, the
addresses 5 and 6 share an item and their lines share `ea = 4`. -/
theorem line_ea_is_item_head_witness :
    Line_init lineHostW (EaArg.addr 5) none = Except.ok ⟨4, 5⟩ ∧
    Line_init lineHostW (EaArg.addr 6) none = Except.ok ⟨4, 6⟩ ∧
    LineState.ea ⟨4, 5⟩ = lineHostW.getItemHead 5 ∧
    (lineHostW.getItemHead 5 = lineHostW.getItemHead 6 →
      LineState.ea ⟨4, 5⟩ = LineState.ea ⟨4, 6⟩) :=
  ⟨rfl, rfl,
    (line_ea_is_item_head lineHostW 5 6 ⟨4, 5⟩ ⟨4, 6⟩ rfl rfl).1,
    (line_ea_is_item_head lineHostW 5 6 ⟨4, 5⟩ ⟨4, 6⟩ rfl rfl).2⟩

/-- C8: `Line.__init__` hands `Comments` the raw argument `ea`, not the item
head, so whenever `ea` is not itself an item head the comments address and
the line `ea` differ. -/
theorem line_comments_use_raw_ea (h : LineHost) (a : Nat) (s : LineState)
    (hs : Line_init h (EaArg.addr a) none = Except.ok s)
    (hhead : h.getItemHead a ≠ a) :
    s.commentsEa = a ∧ s.ea ≠ s.commentsEa := by
  simp only [Line_init, lineResolveEa, Except.map, Except.ok.injEq] at hs
  subst hs
  exact ⟨rfl, hhead⟩

/-- C8 witness: at address 5 (item head 4), the line `ea` is 4 while its
`Comments` object operates on 5. -/
theorem line_comments_use_raw_ea_witness :
    Line_init lineHostW (EaArg.addr 5) none = Except.ok ⟨4, 5⟩ ∧
    lineHostW.getItemHead 5 ≠ 5 ∧
    LineState.commentsEa ⟨4, 5⟩ = 5 ∧
    LineState.ea (⟨4, 5⟩ : LineState) ≠ LineState.commentsEa ⟨4, 5⟩ :=
  ⟨rfl, by decide,
    (line_comments_use_raw_ea lineHostW 5 ⟨4, 5⟩ rfl (by decide)).1,
    (line_comments_use_raw_ea lineHostW 5 ⟨4, 5⟩ rfl (by decide)).2⟩

/-- The fuelled line collector is determined by the first absent index: when
`f` has values at `i, ..., i + k - 1` and none at `i + k`, any fuel of at
least `k` collects exactly those `k` values. -/
theorem collectLines_spec (f : Nat → Option String) :
    ∀ (k fuel i : Nat), k ≤ fuel →
      (∀ j, j < k → (f (i + j)).isSome = true) → f (i + k) = none →
      Comments.collectLines f fuel i =
        (List.range k).map (fun j => (f (i + j)).getD "") := by
  intro k
  induction k with
  | zero =>
    intro fuel i _ _ hnone
    rw [Nat.add_zero] at hnone
    cases fuel with
    | zero => simp [Comments.collectLines]
    | succ fuel => simp [Comments.collectLines, hnone]
  | succ k ih =>
    intro fuel i hle hsome hnone
    cases fuel with
    | zero => omega
    | succ fuel =>
      have h0 : (f (i + 0)).isSome = true := hsome 0 (Nat.succ_pos k)
      rw [Nat.add_zero] at h0
      obtain ⟨s, hs⟩ := Option.isSome_iff_exists.mp h0
      have htail := ih fuel (i + 1) (by omega)
        (fun j hj => by
          have := hsome (j + 1) (by omega)
          rwa [show i + (j + 1) = i + 1 + j by omega] at this)
        (by rwa [show i + 1 + k = i + (k + 1) by omega])
      simp only [Comments.collectLines, hs, htail, List.range_succ_eq_map,
        List.map_cons, List.map_map, Nat.add_zero, hs, Option.getD_some,
        List.cons.injEq, true_and]
      apply List.map_congr_left
      intro j _
      simp only [Function.comp_apply]
      rw [show i + (j + 1) = i + 1 + j by omega]

/-- C4 counterexample: the claim says each comment getter returns the result
of exactly one host call, unmodified.  On a host whose anterior comment at
address 0 is the two lines "alpha" and "beta", the `anterior` getter makes
the host calls `LineA(0, 0)`, `LineA(0, 1)`, `LineA(0, 2)` and returns their
newline-join "alpha\nbeta", which is not the value of any of those calls. -/
theorem comments_anterior_not_single_call :
    Comments.anterior hostTwoLines 0 10 = "alpha\nbeta" ∧
    hostTwoLines.lineA 0 0 = some "alpha" ∧
    hostTwoLines.lineA 0 1 = some "beta" ∧
    hostTwoLines.lineA 0 2 = none ∧
    some (Comments.anterior hostTwoLines 0 10) ≠ hostTwoLines.lineA 0 0 ∧
    some (Comments.anterior hostTwoLines 0 10) ≠ hostTwoLines.lineA 0 1 ∧
    some (Comments.anterior hostTwoLines 0 10) ≠ hostTwoLines.lineA 0 2 := by
  decide

/-- C4 amended: the `regular` and `repeat` getters each return the result of
exactly one host call, unmodified; the `anterior` and `posterior` getters
instead return the newline-join of the host per-index line values from index
0 up to the first index at which the host has no line. -/
theorem comments_getters_forward (h : CommentHost) (ea fuel ka kb : Nat)
    (hka : ka ≤ fuel) (hsa : ∀ j, j < ka → (h.lineA ea j).isSome = true)
    (hna : h.lineA ea ka = none)
    (hkb : kb ≤ fuel) (hsb : ∀ j, j < kb → (h.lineB ea j).isSome = true)
    (hnb : h.lineB ea kb = none) :
    Comments.regular h ea = h.comment ea ∧
    Comments.repeatable h ea = h.rptCmt ea ∧
    Comments.anterior h ea fuel = Comments.specLineJoin (h.lineA ea) ka ∧
    Comments.posterior h ea fuel = Comments.specLineJoin (h.lineB ea) kb := by
  refine ⟨rfl, rfl, ?_, ?_⟩
  · unfold Comments.anterior Comments.specLineJoin
    rw [collectLines_spec (h.lineA ea) ka fuel 0 hka
      (fun j hj => by simpa using hsa j hj) (by simpa using hna)]
    simp
  · unfold Comments.posterior Comments.specLineJoin
    rw [collectLines_spec (h.lineB ea) kb fuel 0 hkb
      (fun j hj => by simpa using hsb j hj) (by simpa using hnb)]
    simp

/-- C4 witness: `comments_getters_forward` on the concrete host with a
two-line anterior comment and a one-line posterior comment at address 0. -/
theorem comments_getters_forward_witness :
    Comments.regular hostTwoLines 0 = hostTwoLines.comment 0 ∧
    Comments.repeatable hostTwoLines 0 = hostTwoLines.rptCmt 0 ∧
    Comments.anterior hostTwoLines 0 10 = Comments.specLineJoin (hostTwoLines.lineA 0) 2 ∧
    Comments.posterior hostTwoLines 0 10 = Comments.specLineJoin (hostTwoLines.lineB 0) 1 :=
  comments_getters_forward hostTwoLines 0 10 2 1 (by decide)
    (by intro j hj; interval_cases j <;> decide) (by decide)
    (by decide) (by intro j hj; interval_cases j; decide) (by decide)

/-- C5: given a module name, the proxy joins the configured directory with
the last dot-separated component of the name plus ".py", loads the source
file at that path, and exports its `getregentry` as the registration
entry. -/
theorem proxy_getregentry_spec (env : CodecsEnv) (moduleName : String) (m : CodecModule)
    (hload : env.loadSource
        (pathJoin env.codecsDir (lastDotComponent moduleName ++ ".py")) = some m) :
    proxy_getregentry env moduleName = some m.getregentry := by
  simp [proxy_getregentry, hload]

/-- C5 witness: module name "sark.codecs.hebrew" resolves to
"/codecs/hebrew.py" and exports that file's entry. -/
theorem proxy_getregentry_spec_witness :
    lastDotComponent "sark.codecs.hebrew" = "hebrew" ∧
    pathJoin codecEnvW.codecsDir (lastDotComponent "sark.codecs.hebrew" ++ ".py") =
      "/codecs/hebrew.py" ∧
    codecEnvW.loadSource
        (pathJoin codecEnvW.codecsDir (lastDotComponent "sark.codecs.hebrew" ++ ".py")) =
      some { getregentry := "hebrew-entry" } ∧
    proxy_getregentry codecEnvW "sark.codecs.hebrew" = some "hebrew-entry" :=
  ⟨by decide, by decide, by decide,
    proxy_getregentry_spec codecEnvW "sark.codecs.hebrew"
      { getregentry := "hebrew-entry" } (by decide)⟩

/-- C9: reading `Line.color` yields `None` exactly when the host-stored
color is the sentinel 0xFFFFFFFF; setting it to `None` stores the sentinel;
and setting any non-sentinel color then reading it back returns it. -/
theorem line_color_sentinel (st : Nat → Nat) (ea c : Nat) (hc : c ≠ 0xFFFFFFFF) :
    (Line.color st ea = none ↔ st ea = 0xFFFFFFFF) ∧
    Line.color_set st ea none ea = 0xFFFFFFFF ∧
    Line.color (Line.color_set st ea (some c)) ea = some c := by
  refine ⟨?_, ?_, ?_⟩
  · unfold Line.color
    by_cases h : st ea = 0xFFFFFFFF <;> simp [h]
  · simp [Line.color_set]
  · simp [Line.color, Line.color_set, hc]

/-- C9 witness: `line_color_sentinel` on an all-zero color table at address
1 with color 7. -/
theorem line_color_sentinel_witness :
    (7 : Nat) ≠ 0xFFFFFFFF ∧
    ((Line.color (fun _ => 0) 1 = none ↔ (0 : Nat) = 0xFFFFFFFF) ∧
      Line.color_set (fun _ => 0) 1 none 1 = 0xFFFFFFFF ∧
      Line.color (Line.color_set (fun _ => 0) 1 (some 7)) 1 = some 7) :=
  ⟨by decide, line_color_sentinel (fun _ => 0) 1 7 (by decide)⟩

/-- C10: the import-time patch saves a copy of `sys.path`, prepends the IDA
python directory for the duration of the forced PySide import, and the
`finally` block restores the copy whether or not the import raised, so the
final `sys.path` equals the original. -/
theorem qt_init_restores_sys_path (p : List String) (d : String) (b : Bool) :
    (qt_module_init p d b).finalPath = p ∧
    (qt_module_init p d b).pathDuringImport = d :: p := ⟨rfl, rfl⟩

/-- C3 amended-claim witness: `line_init_error_iff` evaluated at the
explicit address 5 together with a name. -/
theorem line_init_error_iff_witness :
    Line_init lineHostW (EaArg.addr 5) (some "main") =
        Except.error LineInitError.valueError ↔
      (((some "main" : Option String) ≠ none ∧
          EaArg.addr 5 ≠ EaArg.useCurrentAddress) ∨
        ((some "main" : Option String) = none ∧ EaArg.addr 5 = EaArg.noneArg)) :=
  line_init_error_iff lineHostW (EaArg.addr 5) (some "main")

end Sark
